import Mathlib

/-!
Verification development for the `psg-rostering-tool` rostering engine
(`src/rostering/engine.py`).

The engine builds a CP-SAT model over boolean assignment variables
`x[g, s]` (guard `g` works demand slot `s`), solves it, and decodes the
solution into a `RosterResult`.  This file gives a shallow embedding of
that pipeline:

* the dataclasses of `engine.py` become Lean structures;
* datetimes are modelled as integer seconds since a fixed epoch
  (gaps and durations, computed in hours in the source, become exact
  rationals — Python float arithmetic on these values is exact for the
  magnitudes involved);
* the hard constraints emitted into the CP model become a decidable
  predicate `feasibleB` on assignment matrices `x : Nat -> Nat -> Bool`;
* the soft-penalty terms become `penaltyTermsEval`, which records each
  term's name, its value at `x` (slack variables are taken at their
  least values, which an optimal CP-SAT solution forces whenever the
  attached weights are positive) and its weighted penalty;
* the post-solve decoding (`assignments`, role attribution, coverage
  statistics, violation summaries) becomes `assemble`, and the
  infeasible path becomes `assembleInfeasible`;
* `solve` models the complete CP-SAT search on a finite instance: it
  enumerates every assignment matrix, reports infeasibility when none
  satisfies the hard constraints, and otherwise decodes a matrix of
  least objective value;
* `find_minimum_staffing` mirrors the iterative pool-sizing search.
-/

namespace Rostering

/-- `GuardProfile` from `engine.py`: an individual guard. -/
structure GuardProfile where
  guard_id : String
  name : String
  skills : List String := []
  roles : List String := []
  max_hours_per_week : Option ℚ := none
  priority : Int := 0
  deriving Inhabited, DecidableEq

/-- `DemandSlot` from `engine.py`.  `start`/`stop` are the `start`/`end`
datetimes, in seconds since a fixed epoch (`end` is a Lean keyword).
`required_roles` is an insertion-ordered mapping, role -> count. -/
structure DemandSlot where
  slot_id : String
  start : Int
  stop : Int
  required_guards : Nat := 1
  required_skill : Option String := none
  required_roles : List (String × Nat) := []
  deriving Inhabited, DecidableEq

/-- `DemandSlot.duration_hours`: `(end - start).total_seconds() / 3600.0`. -/
def DemandSlot.duration_hours (s : DemandSlot) : ℚ :=
  ((s.stop - s.start : Int) : ℚ) / 3600

/-- `DemandSlot.day_index`: `start.date().toordinal()`.  With times in
seconds since an epoch, the calendar-day ordinal is the floor division
by 86400 (up to the constant offset of the epoch's ordinal, which is
irrelevant: only grouping and ordering of day indices are used). -/
def DemandSlot.day_index (s : DemandSlot) : Int :=
  Int.fdiv s.start 86400

/-- `HardConstraintSpec` with its field defaults. -/
structure HardConstraintSpec where
  enforce_coverage : Bool := true
  enforce_skill_requirements : Bool := true
  enforce_role_coverage : Bool := false
  max_consecutive_days : Option Nat := none
  min_break_hours : Option ℚ := none
  rest_window_hours : Option ℚ := none
  deriving Inhabited, DecidableEq

/-- `SoftConstraintWeights` with its field defaults. -/
structure SoftConstraintWeights where
  coverage_shortfall : Int := 1000
  min_break_violation : Int := 250
  rest_window_violation : Int := 250
  consecutive_day_violation : Int := 400
  fairness_penalty : Int := 10
  deriving Inhabited, DecidableEq

/-- `RosterConstraintConfig`. -/
structure RosterConstraintConfig where
  hard : HardConstraintSpec := {}
  soft : SoftConstraintWeights := {}
  fairness_target_hours : Option ℚ := none
  deriving Inhabited, DecidableEq

/-- The per-role coverage statistics dict `{"required": _, "assigned": _}`. -/
structure RoleStat where
  required : Nat
  assigned : Nat
  deriving Inhabited, DecidableEq

/-- One entry of `coverage_stats`: `{"required": _, "roles"?: _, "assigned": _}`. -/
structure SlotCoverage where
  required : Nat
  roles : Option (List (String × RoleStat)) := none
  assigned : Nat := 0
  deriving Inhabited, DecidableEq

/-- `RosterResult` from `engine.py`.  Python dicts keep insertion order,
so they are modelled as association lists in that order.  A violation
summary entry `name -> {"value": v, "penalty": p}` is `(name, v, p)`. -/
structure RosterResult where
  feasible : Bool
  assignments : List (String × List String)
  objective_value : Option ℚ
  violation_summaries : List (String × ℚ × ℚ)
  coverage : List (String × SlotCoverage)
  status : String
  solver_statistics : Option String := none
  assignment_roles : List (String × List (String × Option String)) := []
  deriving Inhabited, DecidableEq

/-- `StaffingResult` from `engine.py`. -/
structure StaffingResult where
  minimum_guards : Option Nat
  roster : Option RosterResult
  attempts : List (Nat × RosterResult)
  deriving Inhabited, DecidableEq

/-- Python truthiness of an `Optional[str]`: `None` and `""` are falsy. -/
def truthyStr : Option String → Bool
  | none => false
  | some s => !(s == "")

/-- `guard_role_sets` entry: `set(guard.roles) | set(guard.skills)`
(only membership is ever used, so a list with possible duplicates is an
adequate model of the set). -/
def rolesetOf (g : GuardProfile) : List String :=
  g.roles ++ g.skills

/-- List indexing with the type's default element (indices are always
in range where this is used). -/
def guardAt (guards : List GuardProfile) (g : Nat) : GuardProfile :=
  guards.getD g default

/-- List indexing with the type's default element. -/
def slotAt (slots : List DemandSlot) (i : Nat) : DemandSlot :=
  slots.getD i default

/-- The condition under which `solve` fixes `x[g, s] = 0` (lines
154-159): skill enforcement is on, the slot's `required_skill` is
truthy, and the guard lacks that skill. -/
def skillFixedZero (cfg : RosterConstraintConfig) (g : GuardProfile) (s : DemandSlot) : Bool :=
  cfg.hard.enforce_skill_requirements && truthyStr s.required_skill
    && !(g.skills.contains (s.required_skill.getD ""))

/-- `total_role_required = sum(role_requirements.values())`. -/
def totalRoleRequired (s : DemandSlot) : Nat :=
  (s.required_roles.map Prod.snd).sum

/-- `required_total = max(slot.required_guards, total_role_required)`. -/
def requiredTotal (s : DemandSlot) : Nat :=
  max s.required_guards (totalRoleRequired s)

/-- Indices of the guards assigned to slot `i` (in guard order, as the
extraction loop produces `assigned_by_slot`). -/
def assignedGuardIdxs (n : Nat) (x : Nat → Nat → Bool) (i : Nat) : List Nat :=
  (List.range n).filter (fun g => x g i)

/-- `sum(assigned)` for a slot: how many guards are assigned to it. -/
def assignedCount (n : Nat) (x : Nat → Nat → Bool) (i : Nat) : Nat :=
  (assignedGuardIdxs n x i).length

/-- How many guards assigned to slot `i` have role `r` in their role
set: the value of `sum(eligible)` in the role-coverage constraint. -/
def roleAssignedCount (guards : List GuardProfile) (x : Nat → Nat → Bool) (i : Nat)
    (r : String) : Nat :=
  ((List.range guards.length).filter
    (fun g => (rolesetOf (guardAt guards g)).contains r && x g i)).length

/-- `total_assign_g`: the number of slots guard `g` works. -/
def guardTotal (m : Nat) (x : Nat → Nat → Bool) (g : Nat) : Nat :=
  ((List.range m).filter (fun i => x g i)).length

/-- `gap_after_first = (second.start - first.end).total_seconds() / 3600.0`. -/
def gapAfterFirst (first second : DemandSlot) : ℚ :=
  ((second.start - first.stop : Int) : ℚ) / 3600

/-- `gap_before_first = (first.start - second.end).total_seconds() / 3600.0`. -/
def gapBeforeFirst (first second : DemandSlot) : ℚ :=
  ((first.start - second.stop : Int) : ℚ) / 3600

/-- The guard of the min-break branch (line 265):
`min_break is not None and -min_break < gap_after_first < min_break`. -/
def minBreakPairActive (cfg : RosterConstraintConfig) (first second : DemandSlot) : Bool :=
  match cfg.hard.min_break_hours with
  | none => false
  | some b => decide (-b < gapAfterFirst first second) && decide (gapAfterFirst first second < b)

/-- The guard of the forward rest-window branch (line 280):
`rest_window is not None and 0 <= gap_after_first < rest_window`. -/
def restPairActiveFwd (cfg : RosterConstraintConfig) (first second : DemandSlot) : Bool :=
  match cfg.hard.rest_window_hours with
  | none => false
  | some w => decide (0 ≤ gapAfterFirst first second) && decide (gapAfterFirst first second < w)

/-- The guard of the symmetric rest-window branch (line 296):
`rest_window is not None and 0 <= gap_before_first < rest_window`. -/
def restPairActiveRev (cfg : RosterConstraintConfig) (first second : DemandSlot) : Bool :=
  match cfg.hard.rest_window_hours with
  | none => false
  | some w => decide (0 ≤ gapBeforeFirst first second) && decide (gapBeforeFirst first second < w)

/-- The hard pairwise constraints `assign_first + assign_second <= 1`
for one `(first, second)` pair and the two assignment values `a`, `b`.
Each branch re-tests that the corresponding optional field is set
(lines 266, 281, 297) exactly as the source does. -/
def pairOK (cfg : RosterConstraintConfig) (first second : DemandSlot) (a b : Bool) : Bool :=
  (!(minBreakPairActive cfg first second && cfg.hard.min_break_hours.isSome) || !(a && b))
    && (!(restPairActiveFwd cfg first second && cfg.hard.rest_window_hours.isSome) || !(a && b))
    && (!(restPairActiveRev cfg first second && cfg.hard.rest_window_hours.isSome) || !(a && b))

/-- Sorted, duplicate-free insertion of a day index. -/
def insertDay (d : Int) : List Int → List Int
  | [] => [d]
  | e :: rest =>
    if d = e then e :: rest
    else if d < e then d :: e :: rest
    else e :: insertDay d rest

/-- `sorted_days = sorted(slots_by_day)`: the distinct day indices of
the slots, ascending. -/
def sortedDays (slots : List DemandSlot) : List Int :=
  slots.foldl (fun acc s => insertDay s.day_index acc) []

/-- The reified daily presence `presence_g_d`: guard `g` works at least
one slot on day `d`. -/
def presentOnDay (slots : List DemandSlot) (x : Nat → Nat → Bool) (g : Nat) (d : Int) : Bool :=
  (List.range slots.length).any (fun i => decide ((slotAt slots i).day_index = d) && x g i)

/-- `sum(window_presence)` over a window of days. -/
def windowPresentCount (slots : List DemandSlot) (x : Nat → Nat → Bool) (g : Nat)
    (days : List Int) : Nat :=
  days.countP (fun d => presentOnDay slots x g d)

/-- Skill-eligibility constraints (lines 150-159): `x[g, s] == 0`
whenever `skillFixedZero`. -/
def skillOK (cfg : RosterConstraintConfig) (guards : List GuardProfile)
    (slots : List DemandSlot) (x : Nat → Nat → Bool) : Bool :=
  (List.range guards.length).all fun g =>
    (List.range slots.length).all fun i =>
      !(skillFixedZero cfg (guardAt guards g) (slotAt slots i)) || !(x g i)

/-- Hard coverage constraints (lines 185-186): when `enforce_coverage`,
`sum(assigned) >= required_total` for every slot.  (The soft branch adds
a slack bounded by `required_total`, which is satisfiable for every
`x`, so it imposes no condition here.) -/
def coverageAllOK (cfg : RosterConstraintConfig) (guards : List GuardProfile)
    (slots : List DemandSlot) (x : Nat → Nat → Bool) : Bool :=
  !cfg.hard.enforce_coverage
    || (List.range slots.length).all fun i =>
        decide (requiredTotal (slotAt slots i) ≤ assignedCount guards.length x i)

/-- Hard role-coverage constraints (lines 170-183): when
`enforce_role_coverage`, for every slot and every `(role, count)` in its
`required_roles`, at least `count` assigned guards have that role in
their role set (when no guard is eligible, the source emits
`sum([]) >= count`, which the same inequality captures). -/
def roleCoverageOK (cfg : RosterConstraintConfig) (guards : List GuardProfile)
    (slots : List DemandSlot) (x : Nat → Nat → Bool) : Bool :=
  !cfg.hard.enforce_role_coverage
    || (List.range slots.length).all fun i =>
        (slotAt slots i).required_roles.all fun rc =>
          decide (rc.2 ≤ roleAssignedCount guards x i rc.1)

/-- Hard consecutive-day constraints (lines 216-223): when
`max_consecutive_days = C`, every window of `C + 1` consecutive sorted
days has presence sum at most `C`. -/
def consecOK (cfg : RosterConstraintConfig) (guards : List GuardProfile)
    (slots : List DemandSlot) (x : Nat → Nat → Bool) : Bool :=
  match cfg.hard.max_consecutive_days with
  | none => true
  | some c =>
    let days := sortedDays slots
    (List.range guards.length).all fun g =>
      (List.range (days.length - c)).all fun start =>
        decide (windowPresentCount slots x g ((days.drop start).take (c + 1)) ≤ c)

/-- The pairwise rest/break constraints (lines 256-310) over all guards
and all index-ordered slot pairs `i < j`. -/
def pairwiseOK (cfg : RosterConstraintConfig) (guards : List GuardProfile)
    (slots : List DemandSlot) (x : Nat → Nat → Bool) : Bool :=
  (List.range guards.length).all fun g =>
    (List.range slots.length).all fun i =>
      (List.range slots.length).all fun j =>
        !(decide (i < j)) || pairOK cfg (slotAt slots i) (slotAt slots j) (x g i) (x g j)

/-- Banker's rounding, Python's `round` on exact values: round half to
even. -/
def pythonRound (q : ℚ) : Int :=
  let f : Int := ⌊q⌋
  let r : ℚ := q - (f : ℚ)
  if r < 1 / 2 then f
  else if 1 / 2 < r then f + 1
  else if f % 2 = 0 then f else f + 1

/-- `average_slot_hours`, clamped to 1 when nonpositive (lines 341-345).
Only evaluated when `slots` is nonempty. -/
def averageSlotHours (slots : List DemandSlot) : ℚ :=
  let avg := (slots.map DemandSlot.duration_hours).sum / (slots.length : ℚ)
  if avg ≤ 0 then 1 else avg

/-- `expected_assignments = max(0, int(round(target_hours / average_slot_hours)))`. -/
def expectedAssignments (target : ℚ) (slots : List DemandSlot) : Int :=
  max 0 (pythonRound (target / averageSlotHours slots))

/-- The fairness-target deviation variables `deviation_g` are created
with domain `[0, len(demand_slots)]` but pinned to at least
`|total[g] - expected|`; when `expected - total[g]` exceeds the number
of slots this makes the whole model infeasible.  This predicate captures
that side condition (`total[g] - expected <= len(slots)` always holds
since `total[g] <= len(slots)` and `expected >= 0`). -/
def fairnessDevBoundsOK (cfg : RosterConstraintConfig) (guards : List GuardProfile)
    (slots : List DemandSlot) (x : Nat → Nat → Bool) : Bool :=
  !(decide (cfg.soft.fairness_penalty ≠ 0) && !guards.isEmpty) ||
    match cfg.fairness_target_hours with
    | none => true
    | some t =>
      slots.isEmpty ||
        (List.range guards.length).all fun g =>
          decide (expectedAssignments t slots - (guardTotal slots.length x g : Int)
            ≤ (slots.length : Int))

/-- All hard constraints of the CP model: `x` extends to a feasible
solution of the model built by `RosterEngine.solve` iff `feasibleB`
holds (every auxiliary variable — coverage and consecutive-day slacks,
window sums, presences, totals, span, deviations — is otherwise
unconstrained or always satisfiable given `x`). -/
def feasibleB (cfg : RosterConstraintConfig) (guards : List GuardProfile)
    (slots : List DemandSlot) (x : Nat → Nat → Bool) : Bool :=
  skillOK cfg guards slots x
    && coverageAllOK cfg guards slots x
    && roleCoverageOK cfg guards slots x
    && consecOK cfg guards slots x
    && pairwiseOK cfg guards slots x
    && fairnessDevBoundsOK cfg guards slots x

/-- One accumulated penalty term `(weight, var, name)`, recorded with
the variable's value at the solution and the resulting penalty
`weight * value`. -/
structure PenaltyTerm where
  name : String
  value : Int
  penalty : Int
  deriving Inhabited, DecidableEq

/-- Coverage-shortfall terms (lines 187-196): absent when coverage is
hard; otherwise one term per slot whose slack takes its least value
`max 0 (required_total - sum(assigned))`. -/
def coverageTerms (cfg : RosterConstraintConfig) (guards : List GuardProfile)
    (slots : List DemandSlot) (x : Nat → Nat → Bool) : List PenaltyTerm :=
  if cfg.hard.enforce_coverage then []
  else
    (List.range slots.length).map fun i =>
      let s := slotAt slots i
      let shortfall : Int :=
        max 0 ((requiredTotal s : Int) - (assignedCount guards.length x i : Int))
      ⟨"coverage_shortfall::" ++ s.slot_id,
        shortfall, cfg.soft.coverage_shortfall * shortfall⟩

/-- Consecutive-day soft terms (lines 224-249): only in the `elif`
branch (no hard `max_consecutive_days`, nonzero weight), one term per
guard and per window start; with `max_consec = 0` the slack's least
value is the presence count over the suffix window. -/
def consecTerms (cfg : RosterConstraintConfig) (guards : List GuardProfile)
    (slots : List DemandSlot) (x : Nat → Nat → Bool) : List PenaltyTerm :=
  match cfg.hard.max_consecutive_days with
  | some _ => []
  | none =>
    if cfg.soft.consecutive_day_violation = 0 then []
    else
      let days := sortedDays slots
      ((List.range guards.length).map fun g =>
        (List.range days.length).map fun start =>
          let v : Int := (windowPresentCount slots x g (days.drop start) : Int)
          ⟨"consecutive_day_violation::guard=" ++ (guardAt guards g).guard_id
              ++ "::window=" ++ toString start,
            v, cfg.soft.consecutive_day_violation * v⟩).flatten

/-- The boolean slack of a soft pairwise constraint
`a + b <= 1 + slack` at its least value. -/
def pairSlackVal (a b : Bool) : Int :=
  if a && b then 1 else 0

/-- Soft terms of the pairwise block (lines 256-310) for one pair
`(i, j)`, `i < j`.  Each `elif` is guarded by the re-test of the very
optional field whose presence entered the branch, exactly as in the
source; the soft alternatives are therefore unreachable. -/
def pairTermsFor (cfg : RosterConstraintConfig) (guards : List GuardProfile)
    (slots : List DemandSlot) (x : Nat → Nat → Bool) (g i j : Nat) : List PenaltyTerm :=
  let first := slotAt slots i
  let second := slotAt slots j
  let gid := (guardAt guards g).guard_id
  (if minBreakPairActive cfg first second then
    (if cfg.hard.min_break_hours.isSome then []
     else if cfg.soft.min_break_violation ≠ 0 then
      [⟨"min_break_violation::guard=" ++ gid ++ "::" ++ first.slot_id ++ "->" ++ second.slot_id,
        pairSlackVal (x g i) (x g j),
        cfg.soft.min_break_violation * pairSlackVal (x g i) (x g j)⟩]
     else [])
   else [])
  ++ (if restPairActiveFwd cfg first second then
    (if cfg.hard.rest_window_hours.isSome then []
     else if cfg.soft.rest_window_violation ≠ 0 then
      [⟨"rest_window_violation::guard=" ++ gid ++ "::" ++ first.slot_id ++ "->" ++ second.slot_id,
        pairSlackVal (x g i) (x g j),
        cfg.soft.rest_window_violation * pairSlackVal (x g i) (x g j)⟩]
     else [])
   else [])
  ++ (if restPairActiveRev cfg first second then
    (if cfg.hard.rest_window_hours.isSome then []
     else if cfg.soft.rest_window_violation ≠ 0 then
      [⟨"rest_window_violation::guard=" ++ gid ++ "::" ++ second.slot_id ++ "->" ++ first.slot_id,
        pairSlackVal (x g i) (x g j),
        cfg.soft.rest_window_violation * pairSlackVal (x g i) (x g j)⟩]
     else [])
   else [])

/-- All soft terms of the pairwise block, iterating guards then
index-ordered pairs as the source loops do. -/
def pairSoftTerms (cfg : RosterConstraintConfig) (guards : List GuardProfile)
    (slots : List DemandSlot) (x : Nat → Nat → Bool) : List PenaltyTerm :=
  ((List.range guards.length).map fun g =>
    ((List.range slots.length).map fun i =>
      ((List.range slots.length).map fun j =>
        if i < j then pairTermsFor cfg guards slots x g i j else []).flatten).flatten).flatten

/-- The least admissible value of `max_assignments` (pinned above every
guard total). -/
def maxTotalVal (guards : List GuardProfile) (slots : List DemandSlot)
    (x : Nat → Nat → Bool) : Nat :=
  ((List.range guards.length).map (guardTotal slots.length x)).foldr max 0

/-- The greatest admissible value of `min_assignments` (pinned below
every guard total; totals never exceed `len(slots)`, so that bound does
not bind). -/
def minTotalVal (guards : List GuardProfile) (slots : List DemandSlot)
    (x : Nat → Nat → Bool) : Nat :=
  ((List.range guards.length).map (guardTotal slots.length x)).foldr min slots.length

/-- Fairness terms (lines 322-359): the span term, then, when a target
is configured and slots exist, one deviation term per guard.  Span and
deviations take their least admissible values. -/
def fairnessTerms (cfg : RosterConstraintConfig) (guards : List GuardProfile)
    (slots : List DemandSlot) (x : Nat → Nat → Bool) : List PenaltyTerm :=
  if cfg.soft.fairness_penalty = 0 || guards.isEmpty then []
  else
    let spanVal : Int := (maxTotalVal guards slots x : Int) - (minTotalVal guards slots x : Int)
    ⟨"fairness_span", spanVal, cfg.soft.fairness_penalty * spanVal⟩ ::
      (match cfg.fairness_target_hours with
       | none => []
       | some t =>
         if slots.isEmpty then []
         else
           (List.range guards.length).map fun g =>
             let dev : Int :=
               |(guardTotal slots.length x g : Int) - expectedAssignments t slots|
             ⟨"fairness_target_deviation::guard=" ++ (guardAt guards g).guard_id,
               dev, cfg.soft.fairness_penalty * dev⟩)

/-- All penalty terms in the order the source appends them, with their
values at solution `x` (slacks at their least values, which positive
weights force at an optimum). -/
def penaltyTermsEval (cfg : RosterConstraintConfig) (guards : List GuardProfile)
    (slots : List DemandSlot) (x : Nat → Nat → Bool) : List PenaltyTerm :=
  coverageTerms cfg guards slots x ++ consecTerms cfg guards slots x
    ++ pairSoftTerms cfg guards slots x ++ fairnessTerms cfg guards slots x

/-- The objective value of solution `x`: the weighted sum of all
penalty terms. -/
def minPenaltyZ (cfg : RosterConstraintConfig) (guards : List GuardProfile)
    (slots : List DemandSlot) (x : Nat → Nat → Bool) : Int :=
  (penaltyTermsEval cfg guards slots x).foldr (fun t acc => t.penalty + acc) 0

/-- `assignments_output[g]`: slot ids guard `g` works, in slot
iteration order. -/
def assignedSlotIds (slots : List DemandSlot) (x : Nat → Nat → Bool) (g : Nat) : List String :=
  (List.range slots.length).filterMap fun i =>
    if x g i then some (slotAt slots i).slot_id else none

/-- The `assignments` dict: every guard id, mapped to its (possibly
empty) slot list. -/
def assignmentsOut (guards : List GuardProfile) (slots : List DemandSlot)
    (x : Nat → Nat → Bool) : List (String × List String) :=
  (List.range guards.length).map fun g =>
    ((guardAt guards g).guard_id, assignedSlotIds slots x g)

/-- The scan of `remaining_roles` for one guard (lines 409-413): pick
the first role with a positive remaining count that lies in the guard's
role set, decrementing it. -/
def pickRole (roleset : List String) : List (String × Nat) → Option String × List (String × Nat)
  | [] => (none, [])
  | (r, c) :: rest =>
    if decide (0 < c) && roleset.contains r then (some r, (r, c - 1) :: rest)
    else
      let pr := pickRole roleset rest
      (pr.1, (r, c) :: pr.2)

/-- The greedy role-attribution pass over the guards assigned to a slot
(lines 403-414), returning each guard's attributed role. -/
def attributeRoles (guards : List GuardProfile) (gIdxs : List Nat)
    (remaining : List (String × Nat)) : List (Nat × Option String) :=
  match gIdxs with
  | [] => []
  | g :: rest =>
    let pr := pickRole (rolesetOf (guardAt guards g)) remaining
    (g, pr.1) :: attributeRoles guards rest pr.2

/-- The role attributed to guard `g` on slot `i` (or `none`). -/
def attributedRole (guards : List GuardProfile) (slots : List DemandSlot)
    (x : Nat → Nat → Bool) (g i : Nat) : Option String :=
  ((attributeRoles guards (assignedGuardIdxs guards.length x i)
      (slotAt slots i).required_roles).lookup g).join

/-- `roles_map[r]["assigned"]` for slot `i` after the attribution pass:
how many assigned guards were attributed role `r`. -/
def slotRoleAttributed (guards : List GuardProfile) (slots : List DemandSlot)
    (x : Nat → Nat → Bool) (i : Nat) (r : String) : Nat :=
  (attributeRoles guards (assignedGuardIdxs guards.length x i)
      (slotAt slots i).required_roles).countP (fun p => p.2 == some r)

/-- `coverage_stats[slot_id]` of slot `i` on the feasible path. -/
def mkSlotCoverage (guards : List GuardProfile) (slots : List DemandSlot)
    (x : Nat → Nat → Bool) (i : Nat) : SlotCoverage :=
  let s := slotAt slots i
  { required := requiredTotal s
    roles :=
      if s.required_roles.isEmpty then none
      else some (s.required_roles.map fun rc =>
        (rc.1, ⟨rc.2, slotRoleAttributed guards slots x i rc.1⟩))
    assigned := assignedCount guards.length x i }

/-- The `coverage` dict on the feasible path. -/
def coverageOutFeasible (guards : List GuardProfile) (slots : List DemandSlot)
    (x : Nat → Nat → Bool) : List (String × SlotCoverage) :=
  (List.range slots.length).map fun i =>
    ((slotAt slots i).slot_id, mkSlotCoverage guards slots x i)

/-- `assignment_roles[g]`: one entry per assigned slot, in slot order,
holding the attributed role (the extraction loop writes `None`, the
attribution pass overwrites it). -/
def guardAssignmentRoles (guards : List GuardProfile) (slots : List DemandSlot)
    (x : Nat → Nat → Bool) (g : Nat) : List (String × Option String) :=
  (List.range slots.length).filterMap fun i =>
    if x g i then some ((slotAt slots i).slot_id, attributedRole guards slots x g i) else none

/-- The `assignment_roles` dict on the feasible path. -/
def assignmentRolesOut (guards : List GuardProfile) (slots : List DemandSlot)
    (x : Nat → Nat → Bool) : List (String × List (String × Option String)) :=
  (List.range guards.length).map fun g =>
    ((guardAt guards g).guard_id, guardAssignmentRoles guards slots x g)

/-- Decode a feasible solution `x` into a `RosterResult` (lines
374-462, feasible path).  `objective_value` is the objective at `x`
when penalty terms exist, else `0.0`; `violation_summaries` records the
nonzero terms. -/
def assemble (cfg : RosterConstraintConfig) (guards : List GuardProfile)
    (slots : List DemandSlot) (x : Nat → Nat → Bool) : RosterResult :=
  let terms := penaltyTermsEval cfg guards slots x
  { feasible := true
    assignments := assignmentsOut guards slots x
    objective_value :=
      if terms.isEmpty then some 0 else some ((minPenaltyZ cfg guards slots x : Int) : ℚ)
    violation_summaries :=
      (terms.filter fun t => t.value ≠ 0).map fun t =>
        (t.name, ((t.value : Int) : ℚ), ((t.penalty : Int) : ℚ))
    coverage := coverageOutFeasible guards slots x
    status := "OPTIMAL"
    solver_statistics := some ""
    assignment_roles := assignmentRolesOut guards slots x }

/-- The result returned when the solver status is neither `OPTIMAL` nor
`FEASIBLE` (lines 374-462, infeasible path): all-empty assignments,
zero-filled coverage, no objective, and the single summary entry
`"status" -> {value: status_code, penalty: 0}`. -/
def assembleInfeasible (cfg : RosterConstraintConfig) (guards : List GuardProfile)
    (slots : List DemandSlot) (statusCode : Int) (statusName : String) : RosterResult :=
  { feasible := false
    assignments := guards.map fun gd => (gd.guard_id, [])
    objective_value := none
    violation_summaries := [("status", ((statusCode : Int) : ℚ), 0)]
    coverage :=
      (List.range slots.length).map fun i =>
        let s := slotAt slots i
        (s.slot_id,
          { required := requiredTotal s
            roles :=
              if s.required_roles.isEmpty then none
              else some (s.required_roles.map fun rc => (rc.1, ⟨rc.2, 0⟩))
            assigned := 0 })
    status := statusName
    solver_statistics := if statusCode = 0 then none else some ""
    assignment_roles := guards.map fun gd => (gd.guard_id, []) }

/-- All boolean vectors of length `m`. -/
def allVectors : Nat → List (List Bool)
  | 0 => [[]]
  | m + 1 => (allVectors m).map (false :: ·) ++ (allVectors m).map (true :: ·)

/-- All `n × m` boolean matrices (one row per guard). -/
def allMatrices : Nat → Nat → List (List (List Bool))
  | 0, _ => [[]]
  | n + 1, m =>
    ((allVectors m).map fun row => (allMatrices n m).map fun rest => row :: rest).flatten

/-- The assignment function encoded by a matrix. -/
def xOf (mat : List (List Bool)) : Nat → Nat → Bool :=
  fun g s => (mat.getD g []).getD s false

/-- Modelled CP-SAT semantics of `RosterEngine.solve` on a finite
instance (no time limit): the model is declared infeasible (status code
3, `INFEASIBLE`) exactly when no assignment matrix satisfies the hard
constraints; otherwise a feasible matrix of least objective value is
decoded by `assemble`. -/
def solve (cfg : RosterConstraintConfig) (guards : List GuardProfile)
    (slots : List DemandSlot) : RosterResult :=
  let feas := (allMatrices guards.length slots.length).filter
    (fun mat => feasibleB cfg guards slots (xOf mat))
  match feas with
  | [] => assembleInfeasible cfg guards slots 3 "INFEASIBLE"
  | m0 :: rest =>
    let best := rest.foldl
      (fun b cand =>
        if minPenaltyZ cfg guards slots (xOf cand) < minPenaltyZ cfg guards slots (xOf b)
        then cand else b) m0
    assemble cfg guards slots (xOf best)

/-- The sort key order of `find_minimum_staffing`:
`(priority, guard_id)` ascending, lexicographically. -/
def guardKeyLe (a b : GuardProfile) : Prop :=
  a.priority < b.priority ∨ (a.priority = b.priority ∧ a.guard_id ≤ b.guard_id)

instance : DecidableRel guardKeyLe := fun a b => by
  unfold guardKeyLe
  exact inferInstance

instance : IsTotal GuardProfile guardKeyLe :=
  ⟨by
    intro a b
    rcases lt_trichotomy a.priority b.priority with h | h | h
    · exact Or.inl (Or.inl h)
    · rcases le_total a.guard_id b.guard_id with hs | hs
      · exact Or.inl (Or.inr ⟨h, hs⟩)
      · exact Or.inr (Or.inr ⟨h.symm, hs⟩)
    · exact Or.inr (Or.inl h)⟩

instance : IsTrans GuardProfile guardKeyLe :=
  ⟨by
    intro a b c hab hbc
    rcases hab with h1 | ⟨e1, s1⟩
    · rcases hbc with h2 | ⟨e2, s2⟩
      · exact Or.inl (h1.trans h2)
      · exact Or.inl (e2 ▸ h1)
    · rcases hbc with h2 | ⟨e2, s2⟩
      · exact Or.inl (lt_of_le_of_lt (le_of_eq e1) h2)
      · exact Or.inr ⟨e1.trans e2, s1.trans s2⟩⟩

/-- `ordered_guards = sorted(guards, key=lambda g: (g.priority, g.guard_id))`
(a stable sort; insertion sort is stable as well). -/
def sortGuards (guards : List GuardProfile) : List GuardProfile :=
  List.insertionSort guardKeyLe guards

/-- The pool sizes tried: `range(max(minimum, 1), max_size + 1)` with
`max_size = maximum or len(ordered_guards)` (`0`/`None` falsy). -/
def staffSizes (guards : List GuardProfile) (minimum : Nat) (maximum : Option Nat) : List Nat :=
  let maxSize := match maximum with
    | some k => if k = 0 then guards.length else k
    | none => guards.length
  List.range' (max minimum 1) (maxSize + 1 - max minimum 1)

/-- The search loop of `find_minimum_staffing` (lines 480-487),
accumulating `attempts` and stopping at the first feasible size. -/
def staffingLoop (cfg : RosterConstraintConfig) (slots : List DemandSlot)
    (ordered : List GuardProfile) :
    List Nat → List (Nat × RosterResult) → StaffingResult
  | [], acc => ⟨none, none, acc⟩
  | size :: rest, acc =>
    let result := solve cfg (ordered.take size) slots
    let acc2 := acc ++ [(size, result)]
    if result.feasible then ⟨some size, some result, acc2⟩
    else staffingLoop cfg slots ordered rest acc2

/-- `RosterEngine.find_minimum_staffing` (lines 464-493). -/
def find_minimum_staffing (cfg : RosterConstraintConfig) (guards : List GuardProfile)
    (slots : List DemandSlot) (minimum : Nat) (maximum : Option Nat) : StaffingResult :=
  staffingLoop cfg slots (sortGuards guards) (staffSizes guards minimum maximum) []

/-- Prefix test on strings, by code points ("the key starts with ..."). -/
def strStarts (p s : String) : Bool :=
  p.data.isPrefixOf s.data

/-- The default configuration: coverage and skill enforcement on, role
coverage off, no consecutive/break/rest limits, soft weights
`(1000, 250, 250, 400, 10)`, no fairness target. -/
def defaultConfig : RosterConstraintConfig := {}

/-- Scenario S1: one guard `G1` with skill `s`. -/
def s1Guards : List GuardProfile := [⟨"G1", "G1", ["s"], [], none, 0⟩]

/-- Scenario S1: one slot `A(08:00-12:00, required_guards=1,
required_skill=s)`. -/
def s1Slots : List DemandSlot := [⟨"A", 28800, 43200, 1, some "s", []⟩]

/-- A single guard with no skills or roles. -/
def soloGuard : List GuardProfile := [⟨"G1", "G1", [], [], none, 0⟩]

/-- Scenario S4 configuration: defaults plus `rest_window_hours = 1`. -/
def s4Config : RosterConstraintConfig := { hard := { rest_window_hours := some 1 } }

/-- Scenario S4 slots: `A(08:00-12:00)` and `B(10:00-14:00)`, the same
day, each requiring one guard; the intervals overlap by two hours. -/
def s4Slots : List DemandSlot :=
  [⟨"A", 28800, 43200, 1, none, []⟩, ⟨"B", 36000, 50400, 1, none, []⟩]

/-- Configuration with `min_break_hours = 4` over the defaults. -/
def c3Config : RosterConstraintConfig := { hard := { min_break_hours := some 4 } }

/-- Slots for the C3 counterexample: `S2(02:00-03:00)` is nested inside
`S1(00:00-10:00)`; the forward gap is `-8` hours (outside `(-4, 4)`),
the reverse gap `S1.start - S2.end` is `-3` hours (inside `(-4, 4)`). -/
def c3Slots : List DemandSlot :=
  [⟨"S1", 0, 36000, 1, none, []⟩, ⟨"S2", 7200, 10800, 1, none, []⟩]

/-- Configuration with `enforce_role_coverage = true` over the defaults. -/
def c4Config : RosterConstraintConfig := { hard := { enforce_role_coverage := true } }

/-- Guards for the C4 counterexample: `g1` can fill `lead` or `tech`,
`g2` only `lead`. -/
def c4Guards : List GuardProfile :=
  [⟨"g1", "g1", [], ["lead", "tech"], none, 0⟩, ⟨"g2", "g2", [], ["lead"], none, 0⟩]

/-- Slot for the C4 counterexample: requires one `lead` and one `tech`. -/
def c4Slots : List DemandSlot :=
  [⟨"A", 28800, 43200, 1, none, [("lead", 1), ("tech", 1)]⟩]

/-- Guards for the C4 witness: one guard able to fill `lead`. -/
def c4wGuards : List GuardProfile := [⟨"h1", "h1", [], ["lead"], none, 0⟩]

/-- Slot for the C4 witness: requires one `lead`. -/
def c4wSlots : List DemandSlot := [⟨"R", 0, 3600, 1, none, [("lead", 1)]⟩]

/-- Configuration with both `min_break_hours = 1` and
`rest_window_hours = 1` over the defaults. -/
def wPairConfig : RosterConstraintConfig :=
  { hard := { min_break_hours := some 1, rest_window_hours := some 1 } }

/-- Two slots roughly a hundred hours apart (no pairwise condition
applies between them). -/
def wPairSlots : List DemandSlot :=
  [⟨"P", 0, 3600, 1, none, []⟩, ⟨"Q", 360000, 363600, 1, none, []⟩]

/-- The everywhere-true assignment matrix. -/
def allTrueX : Nat → Nat → Bool := fun _ _ => true

theorem feasibleB_parts {cfg : RosterConstraintConfig} {guards : List GuardProfile}
    {slots : List DemandSlot} {x : Nat → Nat → Bool}
    (h : feasibleB cfg guards slots x = true) :
    skillOK cfg guards slots x = true ∧ coverageAllOK cfg guards slots x = true
      ∧ roleCoverageOK cfg guards slots x = true ∧ consecOK cfg guards slots x = true
      ∧ pairwiseOK cfg guards slots x = true
      ∧ fairnessDevBoundsOK cfg guards slots x = true := by
  simpa only [feasibleB, Bool.and_eq_true, and_assoc] using h

theorem pairOK_of_feasible {cfg : RosterConstraintConfig} {guards : List GuardProfile}
    {slots : List DemandSlot} {x : Nat → Nat → Bool}
    (h : feasibleB cfg guards slots x = true) {g i j : Nat}
    (hg : g < guards.length) (hij : i < j) (hj : j < slots.length) :
    pairOK cfg (slotAt slots i) (slotAt slots j) (x g i) (x g j) = true := by
  have hp := (feasibleB_parts h).2.2.2.2.1
  have h1 := List.all_eq_true.mp hp g (List.mem_range.mpr hg)
  have h2 := List.all_eq_true.mp h1 i (List.mem_range.mpr (Nat.lt_trans hij hj))
  have h3 := List.all_eq_true.mp h2 j (List.mem_range.mpr hj)
  simpa [hij] using h3

theorem pairActivesFalse {cfg : RosterConstraintConfig} {guards : List GuardProfile}
    {slots : List DemandSlot} {x : Nat → Nat → Bool} {g i j : Nat}
    (h : feasibleB cfg guards slots x = true) (hg : g < guards.length)
    (hij : i < j) (hj : j < slots.length) (hxi : x g i = true) (hxj : x g j = true) :
    minBreakPairActive cfg (slotAt slots i) (slotAt slots j) = false
      ∧ restPairActiveFwd cfg (slotAt slots i) (slotAt slots j) = false
      ∧ restPairActiveRev cfg (slotAt slots i) (slotAt slots j) = false := by
  have hp := pairOK_of_feasible h hg hij hj
  rw [hxi, hxj] at hp
  simp only [pairOK, Bool.and_true, Bool.not_true, Bool.or_false, Bool.and_eq_true,
    Bool.not_eq_true'] at hp
  obtain ⟨⟨h1, h2⟩, h3⟩ := hp
  refine ⟨?_, ?_, ?_⟩
  · cases hmb : cfg.hard.min_break_hours with
    | none => simp [minBreakPairActive, hmb]
    | some b => rw [hmb] at h1; simpa using h1
  · cases hrw : cfg.hard.rest_window_hours with
    | none => simp [restPairActiveFwd, hrw]
    | some w => rw [hrw] at h2; simpa using h2
  · cases hrw : cfg.hard.rest_window_hours with
    | none => simp [restPairActiveRev, hrw]
    | some w => rw [hrw] at h3; simpa using h3

/-- C1, as stated, is false on the code: solving scenario S1 under the
default configuration yields objective value `400.0`, not `0.0` (the
soft consecutive-day branch runs with `max_consec = 0` and charges
weight 400 for the guard's single active day). -/
theorem c1_s1_objective_counterexample :
    (solve defaultConfig s1Guards s1Slots).objective_value = some 400
      ∧ (solve defaultConfig s1Guards s1Slots).objective_value ≠ some 0 := by
  with_unfolding_all decide

/-- C1 (amended): with the default configuration, solving scenario S1
returns a feasible result with `assignments = {G1: [A]}` and
`objective_value = 400.0` — the consecutive-day soft penalty for the
guard's single active day. -/
theorem c1_s1_solve_amended :
    (solve defaultConfig s1Guards s1Slots).feasible = true
      ∧ (solve defaultConfig s1Guards s1Slots).assignments = [("G1", ["A"])]
      ∧ (solve defaultConfig s1Guards s1Slots).objective_value = some 400 := by
  with_unfolding_all decide

/-- C2, as stated, is false on the code: in scenario S4 the two slots
overlap (B starts before A ends and A starts before B ends), yet with
`rest_window_hours = 1` the solve is feasible and assigns the single
guard to both slots — the forward gap is `-2`, which fails the checked
condition `0 <= gap < W`, so no pairwise constraint is emitted. -/
theorem c2_s4_overlap_counterexample :
    (slotAt s4Slots 1).start < (slotAt s4Slots 0).stop
      ∧ (slotAt s4Slots 0).start < (slotAt s4Slots 1).stop
      ∧ s4Config.hard.rest_window_hours = some 1
      ∧ (solve s4Config soloGuard s4Slots).feasible = true
      ∧ (solve s4Config soloGuard s4Slots).assignments = [("G1", ["A", "B"])] := by
  with_unfolding_all decide

/-- C2 (amended): when `min_break_hours` or `rest_window_hours` is
configured, no feasible solution assigns a guard to two slots `i < j`
satisfying the engine's checked gap conditions (`-B < gap_fwd < B` for
the minimum break, `0 <= gap_fwd < W` or `0 <= gap_rev < W` for the
rest window); overlaps whose gaps fall outside these ranges — such as
S4, which is feasible with both slots assigned — remain permitted. -/
theorem c2_configured_pair_exclusions (cfg : RosterConstraintConfig)
    (guards : List GuardProfile) (slots : List DemandSlot) (x : Nat → Nat → Bool)
    (g i j : Nat) (hfeas : feasibleB cfg guards slots x = true) (hg : g < guards.length)
    (hij : i < j) (hj : j < slots.length) (hxi : x g i = true) (hxj : x g j = true) :
    minBreakPairActive cfg (slotAt slots i) (slotAt slots j) = false
      ∧ restPairActiveFwd cfg (slotAt slots i) (slotAt slots j) = false
      ∧ restPairActiveRev cfg (slotAt slots i) (slotAt slots j) = false :=
  pairActivesFalse hfeas hg hij hj hxi hxj

/-- Witness for the amended C2 at a concrete feasible instance. -/
theorem c2_configured_pair_exclusions_witness :
    (feasibleB wPairConfig soloGuard wPairSlots allTrueX = true
        ∧ 0 < soloGuard.length ∧ 0 < 1 ∧ 1 < wPairSlots.length
        ∧ allTrueX 0 0 = true ∧ allTrueX 0 1 = true)
      ∧ (minBreakPairActive wPairConfig (slotAt wPairSlots 0) (slotAt wPairSlots 1) = false
        ∧ restPairActiveFwd wPairConfig (slotAt wPairSlots 0) (slotAt wPairSlots 1) = false
        ∧ restPairActiveRev wPairConfig (slotAt wPairSlots 0) (slotAt wPairSlots 1) = false) :=
  ⟨⟨by with_unfolding_all decide, by decide, by decide, by decide, rfl, rfl⟩,
    c2_configured_pair_exclusions wPairConfig soloGuard wPairSlots allTrueX 0 0 1
      (by with_unfolding_all decide) (by decide) (by decide) (by decide) rfl rfl⟩

/-- C3, as stated, is false on the code: with `min_break_hours = 4`,
slot `S2` nested inside slot `S1` gives a reverse gap
`S1.start - S2.end = -3` hours, inside the open interval `(-4, 4)`,
yet the solve is feasible and assigns the guard to both slots — only
the forward (index-order) gap `S2.start - S1.end = -8` is tested. -/
theorem c3_reverse_gap_counterexample :
    c3Config.hard.min_break_hours = some 4
      ∧ gapBeforeFirst (slotAt c3Slots 0) (slotAt c3Slots 1) = -3
      ∧ (-(4 : ℚ) < -3 ∧ (-3 : ℚ) < 4)
      ∧ (solve c3Config soloGuard c3Slots).feasible = true
      ∧ (solve c3Config soloGuard c3Slots).assignments = [("G1", ["S1", "S2"])] := by
  with_unfolding_all decide

/-- C3 (amended): with `min_break_hours = B`, no feasible solution
assigns a guard to two slots `i < j` (input index order) whose forward
gap `S[j].start - S[i].end` lies in the open interval `(-B, B)`; the
reverse-direction gap of a pair is not constrained. -/
theorem c3_min_break_forward_gap (cfg : RosterConstraintConfig)
    (guards : List GuardProfile) (slots : List DemandSlot) (x : Nat → Nat → Bool)
    (g i j : Nat) (b : ℚ) (hfeas : feasibleB cfg guards slots x = true)
    (hb : cfg.hard.min_break_hours = some b) (hg : g < guards.length)
    (hij : i < j) (hj : j < slots.length) (hxi : x g i = true) (hxj : x g j = true) :
    ¬(-b < gapAfterFirst (slotAt slots i) (slotAt slots j)
        ∧ gapAfterFirst (slotAt slots i) (slotAt slots j) < b) := by
  have hact := (pairActivesFalse hfeas hg hij hj hxi hxj).1
  rw [minBreakPairActive, hb] at hact
  simpa [Bool.and_eq_false_iff, decide_eq_false_iff_not] using hact

/-- Witness for the amended C3 at a concrete feasible instance. -/
theorem c3_min_break_forward_gap_witness :
    (feasibleB wPairConfig soloGuard wPairSlots allTrueX = true
        ∧ wPairConfig.hard.min_break_hours = some 1
        ∧ 0 < soloGuard.length ∧ 0 < 1 ∧ 1 < wPairSlots.length
        ∧ allTrueX 0 0 = true ∧ allTrueX 0 1 = true)
      ∧ ¬(-(1 : ℚ) < gapAfterFirst (slotAt wPairSlots 0) (slotAt wPairSlots 1)
          ∧ gapAfterFirst (slotAt wPairSlots 0) (slotAt wPairSlots 1) < 1) :=
  ⟨⟨by with_unfolding_all decide, rfl, by decide, by decide, by decide, rfl, rfl⟩,
    c3_min_break_forward_gap wPairConfig soloGuard wPairSlots allTrueX 0 0 1 1
      (by with_unfolding_all decide) rfl (by decide) (by decide) (by decide) rfl rfl⟩

/-- C4, as stated, is false on the code: with `enforce_role_coverage`,
the slot requiring `{lead: 1, tech: 1}` is covered feasibly by `g1`
(role set `{lead, tech}`) and `g2` (role set `{lead}`), but the greedy
attribution hands `lead` to `g1` first, leaving `g2` unmatched, so the
reported `coverage[A].roles[tech].assigned = 0 < 1 = required`. -/
theorem c4_greedy_attribution_counterexample :
    c4Config.hard.enforce_role_coverage = true
      ∧ (solve c4Config c4Guards c4Slots).feasible = true
      ∧ (solve c4Config c4Guards c4Slots).coverage
          = [("A", ⟨2, some [("lead", ⟨1, 1⟩), ("tech", ⟨1, 0⟩)], 2⟩)]
      ∧ ¬((1 : Nat) ≤ 0) := by
  with_unfolding_all decide

/-- C4 (amended): with `enforce_role_coverage`, every feasible solution
assigns to each slot, for each required role `r` with count `c`, at
least `c` guards whose role set (declared roles united with skills)
contains `r`; the greedy attribution count
`coverage[s].roles[r].assigned` may nevertheless fall short of the
requirement. -/
theorem c4_role_coverage_counts (cfg : RosterConstraintConfig)
    (guards : List GuardProfile) (slots : List DemandSlot) (x : Nat → Nat → Bool)
    (i : Nat) (rc : String × Nat) (hfeas : feasibleB cfg guards slots x = true)
    (henf : cfg.hard.enforce_role_coverage = true) (hi : i < slots.length)
    (hrc : rc ∈ (slotAt slots i).required_roles) :
    rc.2 ≤ roleAssignedCount guards x i rc.1 := by
  have hr := (feasibleB_parts hfeas).2.2.1
  rw [roleCoverageOK, henf] at hr
  simp only [Bool.not_true, Bool.false_or] at hr
  have h1 := List.all_eq_true.mp hr i (List.mem_range.mpr hi)
  have h2 := List.all_eq_true.mp h1 rc hrc
  exact of_decide_eq_true h2

/-- Witness for the amended C4 at a concrete feasible instance. -/
theorem c4_role_coverage_counts_witness :
    (feasibleB c4Config c4wGuards c4wSlots allTrueX = true
        ∧ c4Config.hard.enforce_role_coverage = true
        ∧ 0 < c4wSlots.length
        ∧ ("lead", 1) ∈ (slotAt c4wSlots 0).required_roles)
      ∧ 1 ≤ roleAssignedCount c4wGuards allTrueX 0 "lead" :=
  ⟨⟨by with_unfolding_all decide, rfl, by decide, by decide⟩,
    c4_role_coverage_counts c4Config c4wGuards c4wSlots allTrueX 0 ("lead", 1)
      (by with_unfolding_all decide) rfl (by decide) (by decide)⟩

theorem isPrefixOf_false_of_head {a b : Char} {ps ss : List Char} (h : (a == b) = false) :
    List.isPrefixOf (a :: ps) (b :: ss) = false := by
  simp only [List.isPrefixOf, h, Bool.false_and]

theorem strStarts_false_head (p s : String) (c c' : Char) (ps ss : List Char)
    (hp : p.data = c :: ps) (hs : s.data = c' :: ss) (h : (c == c') = false) :
    strStarts p s = false := by
  unfold strStarts
  rw [hp, hs]
  exact isPrefixOf_false_of_head h

theorem nameOk_of_head (s : String) (c : Char) (ss : List Char) (hs : s.data = c :: ss)
    (hm : ('m' == c) = false) (hr : ('r' == c) = false) :
    (!(strStarts "min_break_violation::" s) && !(strStarts "rest_window_violation::" s)) = true := by
  rw [strStarts_false_head "min_break_violation::" s 'm' c "in_break_violation::".data ss rfl hs hm,
    strStarts_false_head "rest_window_violation::" s 'r' c "est_window_violation::".data ss rfl hs hr]
  rfl

theorem pairTermsFor_eq_nil (cfg : RosterConstraintConfig) (guards : List GuardProfile)
    (slots : List DemandSlot) (x : Nat → Nat → Bool) (g i j : Nat) :
    pairTermsFor cfg guards slots x g i j = [] := by
  unfold pairTermsFor
  cases hmb : cfg.hard.min_break_hours <;> cases hrw : cfg.hard.rest_window_hours <;>
    simp [minBreakPairActive, restPairActiveFwd, restPairActiveRev, hmb, hrw]

theorem pairSoftTerms_eq_nil (cfg : RosterConstraintConfig) (guards : List GuardProfile)
    (slots : List DemandSlot) (x : Nat → Nat → Bool) :
    pairSoftTerms cfg guards slots x = [] := by
  unfold pairSoftTerms
  simp [pairTermsFor_eq_nil, List.flatten_eq_nil_iff]

theorem penaltyTermNames_ok (cfg : RosterConstraintConfig) (guards : List GuardProfile)
    (slots : List DemandSlot) (x : Nat → Nat → Bool) :
    ∀ t ∈ penaltyTermsEval cfg guards slots x,
      (!(strStarts "min_break_violation::" t.name)
        && !(strStarts "rest_window_violation::" t.name)) = true := by
  intro t ht
  unfold penaltyTermsEval at ht
  rcases List.mem_append.mp ht with ht | ht
  rotate_left
  · unfold fairnessTerms at ht
    split at ht
    · exact absurd ht (List.not_mem_nil t)
    · rcases List.mem_cons.mp ht with rfl | ht
      · exact nameOk_of_head _ 'f' _ rfl (by decide) (by decide)
      · split at ht
        · exact absurd ht (List.not_mem_nil t)
        · split at ht
          · exact absurd ht (List.not_mem_nil t)
          · obtain ⟨g, hg, rfl⟩ := List.mem_map.mp ht
            exact nameOk_of_head _ 'f' _ rfl (by decide) (by decide)
  rcases List.mem_append.mp ht with ht | ht
  rotate_left
  · rw [pairSoftTerms_eq_nil] at ht
    exact absurd ht (List.not_mem_nil t)
  rcases List.mem_append.mp ht with ht | ht
  · unfold coverageTerms at ht
    split at ht
    · exact absurd ht (List.not_mem_nil t)
    · obtain ⟨i, hi, rfl⟩ := List.mem_map.mp ht
      exact nameOk_of_head _ 'c' _ rfl (by decide) (by decide)
  · unfold consecTerms at ht
    split at ht
    · exact absurd ht (List.not_mem_nil t)
    · split at ht
      · exact absurd ht (List.not_mem_nil t)
      · obtain ⟨l, hl, htl⟩ := List.mem_flatten.mp ht
        obtain ⟨g, hg, rfl⟩ := List.mem_map.mp hl
        obtain ⟨start, hstart, rfl⟩ := List.mem_map.mp htl
        exact nameOk_of_head _ 'c' _ rfl (by decide) (by decide)

/-- C5: no configuration ever produces a `min_break_violation` or
`rest_window_violation` penalty term, and no violation summary (on
either the feasible or the infeasible path) has a key starting with
`min_break_violation::` or `rest_window_violation::`: the soft `elif`
branches re-test the very optional fields (`hard.min_break_hours`,
`hard.rest_window_hours`) whose presence entered the pairwise block, so
the penalized alternatives are unreachable. -/
theorem c5_soft_break_rest_unreachable (cfg : RosterConstraintConfig)
    (guards : List GuardProfile) (slots : List DemandSlot) (x : Nat → Nat → Bool)
    (statusCode : Int) (statusName : String) :
    ((penaltyTermsEval cfg guards slots x).all fun t =>
        !(strStarts "min_break_violation::" t.name)
          && !(strStarts "rest_window_violation::" t.name)) = true
      ∧ ((assemble cfg guards slots x).violation_summaries.all fun p =>
          !(strStarts "min_break_violation::" p.1)
            && !(strStarts "rest_window_violation::" p.1)) = true
      ∧ ((assembleInfeasible cfg guards slots statusCode statusName).violation_summaries.all
          fun p => !(strStarts "min_break_violation::" p.1)
            && !(strStarts "rest_window_violation::" p.1)) = true := by
  refine ⟨List.all_eq_true.mpr (penaltyTermNames_ok cfg guards slots x), ?_, ?_⟩
  · apply List.all_eq_true.mpr
    intro p hp
    obtain ⟨u, hu, rfl⟩ := List.mem_map.mp hp
    exact penaltyTermNames_ok cfg guards slots x u (List.mem_of_mem_filter hu)
  · apply List.all_eq_true.mpr
    intro p hp
    obtain rfl := List.mem_singleton.mp hp
    exact (by decide :
      (!(strStarts "min_break_violation::" "status")
        && !(strStarts "rest_window_violation::" "status")) = true)

/-- C7: with skill enforcement on, a guard assigned in any feasible
solution to a slot with a (truthy) required skill possesses that skill
— the variable `x[g, s]` is fixed to `0` whenever the skill is
missing. -/
theorem c7_skill_requirement (cfg : RosterConstraintConfig) (guards : List GuardProfile)
    (slots : List DemandSlot) (x : Nat → Nat → Bool) (g i : Nat) (sk : String)
    (hfeas : feasibleB cfg guards slots x = true)
    (henf : cfg.hard.enforce_skill_requirements = true)
    (hg : g < guards.length) (hi : i < slots.length) (hxi : x g i = true)
    (hsk : (slotAt slots i).required_skill = some sk) (hne : sk ≠ "") :
    sk ∈ (guardAt guards g).skills := by
  have hs := (feasibleB_parts hfeas).1
  have h1 := List.all_eq_true.mp hs g (List.mem_range.mpr hg)
  have h2 := List.all_eq_true.mp h1 i (List.mem_range.mpr hi)
  rw [hxi] at h2
  simp only [Bool.not_true, Bool.or_false, Bool.not_eq_true'] at h2
  rw [skillFixedZero, henf, hsk] at h2
  simpa [truthyStr, hne] using h2

/-- Witness for C7 at scenario S1. -/
theorem c7_skill_requirement_witness :
    (feasibleB defaultConfig s1Guards s1Slots allTrueX = true
        ∧ defaultConfig.hard.enforce_skill_requirements = true
        ∧ 0 < s1Guards.length ∧ 0 < s1Slots.length ∧ allTrueX 0 0 = true
        ∧ (slotAt s1Slots 0).required_skill = some "s" ∧ "s" ≠ "")
      ∧ "s" ∈ (guardAt s1Guards 0).skills :=
  ⟨⟨by with_unfolding_all decide, rfl, by decide, by decide, rfl, rfl, by decide⟩,
    c7_skill_requirement defaultConfig s1Guards s1Slots allTrueX 0 0 "s"
      (by with_unfolding_all decide) rfl (by decide) (by decide) rfl rfl (by decide)⟩

/-- C10: whenever the solver status is not `OPTIMAL`/`FEASIBLE`, the
returned result has `feasible = false`, every guard mapped to an empty
assignment list, zero assigned coverage on every slot, no objective
value, and exactly the summary entry `"status"` carrying the numeric
status code with penalty `0`. -/
theorem c10_infeasible_result (cfg : RosterConstraintConfig) (guards : List GuardProfile)
    (slots : List DemandSlot) (statusCode : Int) (statusName : String) :
    (assembleInfeasible cfg guards slots statusCode statusName).feasible = false
      ∧ ((assembleInfeasible cfg guards slots statusCode statusName).assignments.all
          fun p => p.2.isEmpty) = true
      ∧ ((assembleInfeasible cfg guards slots statusCode statusName).coverage.all
          fun p => p.2.assigned == 0) = true
      ∧ (assembleInfeasible cfg guards slots statusCode statusName).objective_value = none
      ∧ (assembleInfeasible cfg guards slots statusCode statusName).violation_summaries
          = [("status", ((statusCode : Int) : ℚ), 0)] := by
  refine ⟨rfl, ?_, ?_, rfl, rfl⟩
  · apply List.all_eq_true.mpr
    intro p hp
    obtain ⟨gd, hgd, rfl⟩ := List.mem_map.mp hp
    rfl
  · apply List.all_eq_true.mpr
    intro p hp
    obtain ⟨i, hi, rfl⟩ := List.mem_map.mp hp
    rfl

theorem getD_map_range {α : Type} (f : Nat → α) (d : α) {i m : Nat} (hi : i < m) :
    ((List.range m).map f).getD i d = f i := by
  have hlen : i < ((List.range m).map f).length := by simpa using hi
  rw [List.getD_eq_getElem _ d hlen]
  simp

theorem range_map_getD {α β : Type} (l : List α) (d : α) (f : α → β) :
    (List.range l.length).map (fun i => f (l.getD i d)) = l.map f := by
  induction l with
  | nil => rfl
  | cons a t ih =>
    rw [List.length_cons, List.range_succ_eq_map, List.map_cons, List.map_map]
    have hc : ((fun i => f ((a :: t).getD i d)) ∘ Nat.succ) = fun i => f (t.getD i d) := by
      funext i
      simp [List.getD_cons_succ]
    rw [hc, ih]
    simp [List.getD_cons_zero]

theorem slotAt_eq_getElem {slots : List DemandSlot} {i : Nat} (hi : i < slots.length) :
    slotAt slots i = slots[i] := by
  unfold slotAt
  exact List.getD_eq_getElem slots default hi

theorem slotId_inj {slots : List DemandSlot} (hnd : (slots.map DemandSlot.slot_id).Nodup)
    {i j : Nat} (hi : i < slots.length) (hj : j < slots.length)
    (heq : (slotAt slots j).slot_id = (slotAt slots i).slot_id) : j = i := by
  rw [slotAt_eq_getElem hi, slotAt_eq_getElem hj] at heq
  have hj2 : j < (slots.map DemandSlot.slot_id).length := by simpa using hj
  have hi2 : i < (slots.map DemandSlot.slot_id).length := by simpa using hi
  apply (List.Nodup.getElem_inj_iff hnd).mp
  rw [List.getElem_map, List.getElem_map]
  exact heq
  exact hi2
  exact hj2

theorem contains_assignedSlotIds {slots : List DemandSlot} {x : Nat → Nat → Bool} {g i : Nat}
    (hnd : (slots.map DemandSlot.slot_id).Nodup) (hi : i < slots.length) :
    (assignedSlotIds slots x g).contains (slotAt slots i).slot_id = x g i := by
  cases hx : x g i with
  | true =>
    apply List.elem_eq_true_of_mem
    unfold assignedSlotIds
    refine List.mem_filterMap.mpr ⟨i, List.mem_range.mpr hi, ?_⟩
    simp [hx]
  | false =>
    apply Bool.eq_false_iff.mpr
    intro hcon
    have hmem := List.mem_of_elem_eq_true hcon
    unfold assignedSlotIds at hmem
    obtain ⟨j, hjr, hjeq⟩ := List.mem_filterMap.mp hmem
    have hj := List.mem_range.mp hjr
    by_cases hxj : x g j = true
    · rw [if_pos hxj] at hjeq
      have hji : j = i := slotId_inj hnd hi hj (Option.some.inj hjeq)
      rw [hji] at hxj
      exact absurd hxj (by rw [hx]; exact Bool.false_ne_true)
    · rw [if_neg hxj] at hjeq
      exact Option.noConfusion hjeq

/-- C9: on both solve outcomes, the `assignments` keys are exactly the
input guard ids (in order), the `coverage` keys exactly the slot ids,
and each guard's `assignment_roles` keys are exactly that guard's
`assignments` list. -/
theorem c9_output_contract (cfg : RosterConstraintConfig) (guards : List GuardProfile)
    (slots : List DemandSlot) (x : Nat → Nat → Bool) (statusCode : Int)
    (statusName : String) :
    (assemble cfg guards slots x).assignments.map Prod.fst = guards.map GuardProfile.guard_id
      ∧ (assemble cfg guards slots x).coverage.map Prod.fst = slots.map DemandSlot.slot_id
      ∧ (assemble cfg guards slots x).assignment_roles.map Prod.fst
          = guards.map GuardProfile.guard_id
      ∧ (assemble cfg guards slots x).assignment_roles.map (fun p => p.2.map Prod.fst)
          = (assemble cfg guards slots x).assignments.map Prod.snd
      ∧ (assembleInfeasible cfg guards slots statusCode statusName).assignments
          = guards.map (fun gd => (gd.guard_id, []))
      ∧ (assembleInfeasible cfg guards slots statusCode statusName).coverage.map Prod.fst
          = slots.map DemandSlot.slot_id
      ∧ (assembleInfeasible cfg guards slots statusCode statusName).assignment_roles
          = guards.map (fun gd => (gd.guard_id, [])) := by
  refine ⟨?_, ?_, ?_, ?_, rfl, ?_, rfl⟩
  · show (assignmentsOut guards slots x).map Prod.fst = _
    unfold assignmentsOut
    rw [List.map_map]
    simpa [guardAt, Function.comp] using
      range_map_getD guards default (fun gd => gd.guard_id)
  · show (coverageOutFeasible guards slots x).map Prod.fst = _
    unfold coverageOutFeasible
    rw [List.map_map]
    simpa [slotAt, Function.comp] using
      range_map_getD slots default (fun s => s.slot_id)
  · show (assignmentRolesOut guards slots x).map Prod.fst = _
    unfold assignmentRolesOut
    rw [List.map_map]
    simpa [guardAt, Function.comp] using
      range_map_getD guards default (fun gd => gd.guard_id)
  · show (assignmentRolesOut guards slots x).map (fun p => p.2.map Prod.fst)
        = (assignmentsOut guards slots x).map Prod.snd
    unfold assignmentRolesOut assignmentsOut
    rw [List.map_map, List.map_map]
    apply List.map_congr_left
    intro g hg
    show (guardAssignmentRoles guards slots x g).map Prod.fst = assignedSlotIds slots x g
    unfold guardAssignmentRoles assignedSlotIds
    rw [List.map_filterMap]
    congr 1
    funext i
    split <;> rfl
  · show ((List.range slots.length).map _).map Prod.fst = _
    rw [List.map_map]
    simpa [slotAt, Function.comp] using
      range_map_getD slots default (fun s => s.slot_id)

/-- C6: in every feasible solution, the reported
`coverage[s].assigned` equals the number of guards whose assignment
list contains `s.slot_id`, and under `enforce_coverage` it is at least
`max(required_guards, sum(required_roles.values()))`. -/
theorem c6_coverage_assigned (cfg : RosterConstraintConfig) (guards : List GuardProfile)
    (slots : List DemandSlot) (x : Nat → Nat → Bool) (i : Nat)
    (hnd : (slots.map DemandSlot.slot_id).Nodup)
    (hfeas : feasibleB cfg guards slots x = true) (hi : i < slots.length) :
    ((assemble cfg guards slots x).coverage.getD i default).2.assigned
        = (assemble cfg guards slots x).assignments.countP
            (fun p => p.2.contains (slotAt slots i).slot_id)
      ∧ (cfg.hard.enforce_coverage = true →
          requiredTotal (slotAt slots i)
            ≤ ((assemble cfg guards slots x).coverage.getD i default).2.assigned) := by
  have hcov : (assemble cfg guards slots x).coverage.getD i default
      = ((slotAt slots i).slot_id, mkSlotCoverage guards slots x i) := by
    show (coverageOutFeasible guards slots x).getD i default = _
    unfold coverageOutFeasible
    exact getD_map_range _ _ hi
  constructor
  · rw [hcov]
    show assignedCount guards.length x i
        = (assignmentsOut guards slots x).countP (fun p => p.2.contains (slotAt slots i).slot_id)
    unfold assignmentsOut
    rw [List.countP_map]
    have hcong : ∀ g ∈ List.range guards.length,
        (((fun p : String × List String => p.2.contains (slotAt slots i).slot_id) ∘ fun g =>
          ((guardAt guards g).guard_id, assignedSlotIds slots x g)) g = true)
          ↔ ((fun g => x g i) g = true) := by
      intro g hg
      show ((assignedSlotIds slots x g).contains (slotAt slots i).slot_id = true)
        ↔ (x g i = true)
      rw [contains_assignedSlotIds hnd hi]
    rw [List.countP_congr hcong, List.countP_eq_length_filter]
    rfl
  · intro henf
    rw [hcov]
    show requiredTotal (slotAt slots i) ≤ assignedCount guards.length x i
    have hc := (feasibleB_parts hfeas).2.1
    rw [coverageAllOK, henf] at hc
    simp only [Bool.not_true, Bool.false_or] at hc
    exact of_decide_eq_true (List.all_eq_true.mp hc i (List.mem_range.mpr hi))

/-- Witness for C6 at scenario S1. -/
theorem c6_coverage_assigned_witness :
    ((s1Slots.map DemandSlot.slot_id).Nodup
        ∧ feasibleB defaultConfig s1Guards s1Slots allTrueX = true ∧ 0 < s1Slots.length)
      ∧ (((assemble defaultConfig s1Guards s1Slots allTrueX).coverage.getD 0 default).2.assigned
            = (assemble defaultConfig s1Guards s1Slots allTrueX).assignments.countP
                (fun p => p.2.contains (slotAt s1Slots 0).slot_id)
          ∧ (defaultConfig.hard.enforce_coverage = true →
              requiredTotal (slotAt s1Slots 0)
                ≤ ((assemble defaultConfig s1Guards s1Slots
                    allTrueX).coverage.getD 0 default).2.assigned)) :=
  ⟨⟨by decide, by with_unfolding_all decide, by decide⟩,
    c6_coverage_assigned defaultConfig s1Guards s1Slots allTrueX 0 (by decide)
      (by with_unfolding_all decide) (by decide)⟩

theorem staffingLoop_spec (cfg : RosterConstraintConfig) (slots : List DemandSlot)
    (ordered : List GuardProfile) (sizes : List Nat) (acc : List (Nat × RosterResult)) :
    staffingLoop cfg slots ordered sizes acc =
      match sizes.dropWhile (fun k => !(solve cfg (ordered.take k) slots).feasible) with
      | [] => ⟨none, none, acc ++ sizes.map fun k => (k, solve cfg (ordered.take k) slots)⟩
      | k :: _ =>
        ⟨some k, some (solve cfg (ordered.take k) slots),
          acc ++ ((sizes.takeWhile fun k => !(solve cfg (ordered.take k) slots).feasible)
            ++ [k]).map fun k => (k, solve cfg (ordered.take k) slots)⟩ := by
  induction sizes generalizing acc with
  | nil => simp [staffingLoop]
  | cons s rest ih =>
    cases hf : (solve cfg (ordered.take s) slots).feasible with
    | true =>
      simp [staffingLoop, List.dropWhile_cons, List.takeWhile_cons, hf]
    | false =>
      show (if (solve cfg (ordered.take s) slots).feasible then _ else _) = _
      rw [hf]
      simp only [if_neg Bool.false_ne_true]
      rw [ih]
      cases hdw : rest.dropWhile (fun k => !(solve cfg (ordered.take k) slots).feasible) with
      | nil => simp [List.dropWhile_cons, List.takeWhile_cons, hf, hdw]
      | cons k tl => simp [List.dropWhile_cons, List.takeWhile_cons, hf, hdw]

/-- C8: `find_minimum_staffing` sorts the guards by
`(priority, guard_id)` ascending, tries sizes from `max(minimum, 1)`
to `maximum or n`, solving with the first `size` sorted guards and
recording every attempt; it stops at the first feasible size with
`minimum_guards = size` and `roster` that result, and otherwise
returns both absent with all tried sizes recorded. -/
theorem c8_find_minimum_staffing (cfg : RosterConstraintConfig) (guards : List GuardProfile)
    (slots : List DemandSlot) (minimum : Nat) (maximum : Option Nat) :
    List.Perm (sortGuards guards) guards
      ∧ List.Sorted guardKeyLe (sortGuards guards)
      ∧ find_minimum_staffing cfg guards slots minimum maximum =
          (match (staffSizes guards minimum maximum).dropWhile
              (fun k => !(solve cfg ((sortGuards guards).take k) slots).feasible) with
           | [] =>
             ⟨none, none, (staffSizes guards minimum maximum).map fun k =>
               (k, solve cfg ((sortGuards guards).take k) slots)⟩
           | k :: _ =>
             ⟨some k, some (solve cfg ((sortGuards guards).take k) slots),
               (((staffSizes guards minimum maximum).takeWhile
                   (fun k => !(solve cfg ((sortGuards guards).take k) slots).feasible))
                 ++ [k]).map fun k => (k, solve cfg ((sortGuards guards).take k) slots)⟩) := by
  refine ⟨List.perm_insertionSort guardKeyLe guards,
    List.sorted_insertionSort guardKeyLe guards, ?_⟩
  unfold find_minimum_staffing
  rw [staffingLoop_spec]
  cases (staffSizes guards minimum maximum).dropWhile
      (fun k => !(solve cfg ((sortGuards guards).take k) slots).feasible) with
  | nil => simp
  | cons k tl => simp

end Rostering
